import Mathlib

/-!
Verification of the frequency-synthesis core of PageFrequencyGenerator.cpp
(Arduino-Simple-DSO).

The embedding models the non-AVR code path of the file.  C `float`
arithmetic is modelled exactly over `ℚ` (the claims under study are about
the algorithm's exact arithmetic, not binary-float rounding), and the
transcendental slider mapping (`pow`/`log10f`) is modelled over `ℝ`.
Machine integers are `ℕ` with explicit reductions modulo `2^32` / `2^16`
where the C code can overflow.  The C float-to-unsigned conversion is
modelled with the target hardware's (ARM VCVT) semantics: truncation
toward zero, saturating at 0 and at the top of the unsigned range; a float
division by zero yields +infinity, which that conversion saturates to
0xFFFFFFFF.
-/

namespace FreqGen

/-- Waveform kinds, from the WAVEFORM_* defines. -/
inductive Waveform
  | square
  | sine
  | triangle
  | sawtooth
deriving DecidableEq

/-- Mirror of `struct FrequencyInfoStruct`.  The union member is taken in its
`DividerInt` interpretation, the only one used by the square-wave path. -/
structure FrequencyInfo where
  DividerInt : ℕ
  PeriodMicros : ℕ
  Frequency : ℚ
  FrequencyFactorTimes1000 : ℕ
  FrequencyFactorIndex : ℕ
  Waveform : Waveform
  isOutputEnabled : Bool
deriving DecidableEq

/-- Calls made to the hardware timer driver (Synth_Timer32_SetReloadValue on
the 32-bit platform, Synth_Timer16_SetReloadValue on the 16-bit platform). -/
inductive DriverCall
  | timer32SetReload (reload : ℕ)
  | timer16SetReload (reload : ℕ) (prescalerValue : ℕ)
deriving DecidableEq

/-- ARM float-to-uint32 conversion (VCVT.U32): truncate toward zero,
saturate below at 0 and above at 0xFFFFFFFF. -/
def u32ofRat (x : ℚ) : ℕ := min (Int.toNat ⌊x⌋) 4294967295

/-- The tick count `uint32_t tPeriodInt = (36000000000 / FrequencyFactorTimes1000) / Frequency`.
`36000000000 / FrequencyFactorTimes1000` is exact integer division; the outer
division is float division, whose result is converted to `uint32_t`.  A float
division by zero gives +infinity, which the conversion saturates to 0xFFFFFFFF. -/
def tickCount (st : FrequencyInfo) : ℕ :=
  if st.Frequency = 0 then 4294967295
  else u32ofRat (((36000000000 / st.FrequencyFactorTimes1000 : ℕ) : ℚ) / st.Frequency)

/-- The mathematically exact truncated tick count
`floor((timer_clock_hz*1000/factor_times_1000)/target)` the spec speaks about
(meaningful for a positive target). -/
def exactTicks (st : FrequencyInfo) : ℕ :=
  Nat.floor (((36000000000 / st.FrequencyFactorTimes1000 : ℕ) : ℚ) / st.Frequency)

/-- Translator, 32-bit platform (`setWaveformFrequency`, STM32F30X branch).
Returns the new state, the `hasError` flag and the driver calls made. -/
def setWaveformFrequency32 (st : FrequencyInfo) : FrequencyInfo × Bool × List DriverCall :=
  if st.Waveform = Waveform.square then
    let tPeriodInt := tickCount st
    let hasError := decide (tPeriodInt < 2)
    let tPeriodInt := if tPeriodInt < 2 then 2 else tPeriodInt
    ({ st with DividerInt := tPeriodInt }, hasError, [DriverCall.timer32SetReload tPeriodInt])
  else
    (st, true, [])

/-- Translator, 16-bit platform (`setWaveformFrequency`, non-STM32F30X branch):
`tPrescalerValue = (tPeriodInt >> 16) + 1`; when it exceeds 1 the reload is
divided down; the driver receives the (reload, prescaler) pair and the state
stores their product (a `uint32_t` multiplication). -/
def setWaveformFrequency16 (st : FrequencyInfo) : FrequencyInfo × Bool × List DriverCall :=
  if st.Waveform = Waveform.square then
    let t0 := tickCount st
    let hasError := decide (t0 < 2)
    let t1 := if t0 < 2 then 2 else t0
    let tPrescalerValue := t1 >>> 16 + 1
    let t2 := if 1 < tPrescalerValue then t1 / tPrescalerValue else t1
    let t3 := t2 * tPrescalerValue % 4294967296
    ({ st with DividerInt := t3 }, hasError, [DriverCall.timer16SetReload t2 tPrescalerValue])
  else
    (st, true, [])

/-- Mirror of `setFrequencyFactor`: stores the index (a `uint8_t`) and
`1000^index` accumulated in a `uint32_t`. -/
def setFrequencyFactor (st : FrequencyInfo) (aIndexValue : ℕ) : FrequencyInfo :=
  { st with
    FrequencyFactorIndex := aIndexValue % 256
    FrequencyFactorTimes1000 := 1000 ^ aIndexValue % 4294967296 }

/-- The `while (aValue > 1000) { aValue /= 1000; tIndex++; }` loop of
`setFrequency`. -/
def normalizeLoop (aValue : ℚ) (tIndex : ℕ) : ℚ × ℕ :=
  if h : 1000 < aValue then normalizeLoop (aValue / 1000) (tIndex + 1) else (aValue, tIndex)
termination_by Nat.ceil aValue
decreasing_by
  have hc : 1001 ≤ Nat.ceil aValue := by
    have h1 : (1000 : ℚ) < (Nat.ceil aValue : ℚ) := lt_of_lt_of_le h (Nat.le_ceil _)
    have h2 : (1000 : ℕ) < Nat.ceil aValue := by exact_mod_cast h1
    omega
  have hle : aValue / 1000 ≤ ((Nat.ceil aValue - 1 : ℕ) : ℚ) := by
    have h1 : aValue ≤ (Nat.ceil aValue : ℚ) := Nat.le_ceil _
    have h2 : ((Nat.ceil aValue - 1 : ℕ) : ℚ) = (Nat.ceil aValue : ℚ) - 1 := by
      have h3 : (1 : ℕ) ≤ Nat.ceil aValue := by omega
      push_cast [h3]
      ring
    have h4 : (1001 : ℚ) ≤ (Nat.ceil aValue : ℚ) := by exact_mod_cast hc
    rw [h2]
    linarith
  have h5 := Nat.ceil_le.mpr hle
  omega

/-- Mirror of `setFrequency` (the `set_target_autoscale` event), composed with
the 32-bit translator as on the STM32F30X build. -/
def setFrequency32 (st : FrequencyInfo) (aValue : ℚ) : FrequencyInfo × Bool × List DriverCall :=
  if st.Waveform = Waveform.square then
    let r := normalizeLoop aValue 1
    let r := if r.1 < 1 then (r.1 * 1000, 0) else r
    setWaveformFrequency32 { setFrequencyFactor st r.2 with Frequency := r.1 }
  else
    setWaveformFrequency32 { st with Frequency := aValue }

/-- Reporter (`printFrequencyAndPeriod`, non-AVR branch): the exact frequency
recomputed for the integer period `DividerInt`, in the current decade unit. -/
def realizedFrequency (st : FrequencyInfo) : ℚ :=
  ((36000000000 / st.FrequencyFactorTimes1000 : ℕ) : ℚ) / (st.DividerInt : ℚ)

/-- Slider decode (`doFrequencySlider`): `tValue = aValue / (300/3)`, plus one
decade in 10-Hz mode, then `pow(10, tValue)`. -/
noncomputable def sliderDecode (is10HzRange : Bool) (aValue : ℕ) : ℝ :=
  let tValue : ℝ := (aValue : ℝ) / (300 / 3)
  let tValue := if is10HzRange then tValue + 1 else tValue
  (10 : ℝ) ^ tValue

/-- Slider encode (tail of `printFrequencyAndPeriod`):
`uint16_t tSliderValue = log10f(Frequency) * 100;` — truncation to the
unsigned 16-bit slider value — followed, in 10-Hz mode, by the `uint16_t`
subtraction `tSliderValue -= 100`, which wraps modulo 2^16. -/
noncomputable def sliderEncode (is10HzRange : Bool) (f : ℝ) : ℕ :=
  if is10HzRange then ((⌊Real.logb 10 f * 100⌋.toNat % 65536) + 65536 - 100) % 65536
  else (⌊Real.logb 10 f * 100⌋.toNat) % 65536

/-- State right after `initFrequencyGeneratorPage` (which runs
`setFrequency(200)` on a square-wave state): 200 Hz, decade index 1,
reload 36000000/200 = 180000, output enabled; `is10HzRange` starts `true`. -/
def initState : FrequencyInfo :=
  { DividerInt := 180000
    PeriodMicros := 0
    Frequency := 200
    FrequencyFactorTimes1000 := 1000
    FrequencyFactorIndex := 1
    Waveform := Waveform.square
    isOutputEnabled := true }

/-- The state reached from `initState` by pressing the mHz range button and
entering target 1 (spec scenario: `set_target(1, mHz)`). -/
def stMilli : FrequencyInfo :=
  { initState with Frequency := 1, FrequencyFactorTimes1000 := 1, FrequencyFactorIndex := 0 }

/-- The state reached from `initState` by pressing the MHz range button and
entering target 10 (10 MHz). -/
def stMega : FrequencyInfo :=
  { initState with
    Frequency := 10
    FrequencyFactorTimes1000 := 1000000000
    FrequencyFactorIndex := 3 }

/-- A 150 Hz square-wave state, used on the 16-bit platform where it yields a
tick count of 240000 and a continuous prescaler of 4. -/
def st150 : FrequencyInfo :=
  { initState with Frequency := 150 }

/-- A sine-wave state, for the unsupported-waveform path. -/
def stSine : FrequencyInfo :=
  { initState with Waveform := Waveform.sine }

/-- The tick count after the lower clip of step 3 (`if (tPeriodInt < 2) tPeriodInt = 2`). -/
def clippedTicks (st : FrequencyInfo) : ℕ :=
  if tickCount st < 2 then 2 else tickCount st

/-! ### Helper lemmas -/

theorem tickCount_eq_min (st : FrequencyInfo) (hf : 0 < st.Frequency) :
    tickCount st = min (exactTicks st) 4294967295 := by
  rw [tickCount, if_neg (ne_of_gt hf), u32ofRat, exactTicks, Int.floor_toNat]

theorem tickCount_le (st : FrequencyInfo) : tickCount st ≤ 4294967295 := by
  rw [tickCount]
  split
  · exact le_refl _
  · exact min_le_right _ _

theorem translate32_eval (st : FrequencyInfo) (hw : st.Waveform = Waveform.square) :
    setWaveformFrequency32 st =
      ({ st with DividerInt := if tickCount st < 2 then 2 else tickCount st },
        decide (tickCount st < 2),
        [DriverCall.timer32SetReload (if tickCount st < 2 then 2 else tickCount st)]) := by
  rw [setWaveformFrequency32, if_pos hw]

theorem translate16_eval (st : FrequencyInfo) (hw : st.Waveform = Waveform.square) :
    setWaveformFrequency16 st =
      ({ st with DividerInt :=
          (if 1 < clippedTicks st >>> 16 + 1
            then clippedTicks st / (clippedTicks st >>> 16 + 1) else clippedTicks st) *
          (clippedTicks st >>> 16 + 1) % 4294967296 },
        decide (tickCount st < 2),
        [DriverCall.timer16SetReload
          (if 1 < clippedTicks st >>> 16 + 1
            then clippedTicks st / (clippedTicks st >>> 16 + 1) else clippedTicks st)
          (clippedTicks st >>> 16 + 1)]) := by
  rw [setWaveformFrequency16, if_pos hw, clippedTicks]

theorem tickCount_initState : tickCount initState = 180000 := by
  have h : ((36000000000 / initState.FrequencyFactorTimes1000 : ℕ) : ℚ) /
      initState.Frequency = ((180000 : ℕ) : ℚ) := by
    norm_num [initState]
  rw [tickCount, if_neg (by norm_num [initState]), u32ofRat, h, Int.floor_natCast]
  simp

theorem tickCount_stMilli : tickCount stMilli = 4294967295 := by
  have h : ((36000000000 / stMilli.FrequencyFactorTimes1000 : ℕ) : ℚ) /
      stMilli.Frequency = ((36000000000 : ℕ) : ℚ) := by
    norm_num [stMilli, initState]
  rw [tickCount, if_neg (by norm_num [stMilli, initState]), u32ofRat, h, Int.floor_natCast]
  simp

theorem exactTicks_stMilli : exactTicks stMilli = 36000000000 := by
  have h : ((36000000000 / stMilli.FrequencyFactorTimes1000 : ℕ) : ℚ) /
      stMilli.Frequency = ((36000000000 : ℕ) : ℚ) := by
    norm_num [stMilli, initState]
  rw [exactTicks, h, Nat.floor_natCast]

theorem tickCount_st150 : tickCount st150 = 240000 := by
  have h : ((36000000000 / st150.FrequencyFactorTimes1000 : ℕ) : ℚ) /
      st150.Frequency = ((240000 : ℕ) : ℚ) := by
    norm_num [st150, initState]
  rw [tickCount, if_neg (by norm_num [st150, initState]), u32ofRat, h, Int.floor_natCast]
  simp

/-- Arithmetic core of the 16-bit width reduction: for any clipped tick count
in the `uint32_t` range, the computed reload fits `[2, 65536)` and the
prescaler is at least 1. -/
theorem reload_prescaler_bounds (t : ℕ) (h2 : 2 ≤ t) (h32 : t ≤ 4294967295) :
    2 ≤ (if 1 < t >>> 16 + 1 then t / (t >>> 16 + 1) else t) ∧
    (if 1 < t >>> 16 + 1 then t / (t >>> 16 + 1) else t) < 65536 ∧
    1 ≤ t >>> 16 + 1 := by
  have hs : t >>> 16 = t / 65536 := by
    simp [Nat.shiftRight_eq_div_pow]
  rw [hs]
  by_cases hq : t / 65536 = 0
  · rw [hq, if_neg (by omega : ¬ (1:ℕ) < 0 + 1)]
    omega
  · have hp1 : 1 < t / 65536 + 1 := by omega
    rw [if_pos hp1]
    have ht65536 : 65536 ≤ t := by omega
    have hlow : 2 * (t / 65536 + 1) ≤ t := by omega
    have hhigh : t < 65536 * (t / 65536 + 1) := by omega
    refine ⟨?_, ?_, by omega⟩
    · exact (Nat.le_div_iff_mul_le (by omega)).mpr hlow
    · exact (Nat.div_lt_iff_lt_mul (by omega)).mpr (by omega)

/-! ### Claims -/

/-- C6: for every state on the 32-bit platform with waveform different from
SQUARE, the translator returns clipped (hasError) = true, leaves the whole
state — in particular the stored DividerInt — unchanged, and performs no
driver programming. -/
theorem translate32_nonsquare_atomic (st : FrequencyInfo)
    (hw : st.Waveform ≠ Waveform.square) :
    setWaveformFrequency32 st = (st, true, []) := by
  rw [setWaveformFrequency32, if_neg hw]

/-- Witness for C6 at a concrete sine-wave state. -/
theorem translate32_nonsquare_atomic_witness :
    stSine.Waveform ≠ Waveform.square ∧ setWaveformFrequency32 stSine = (stSine, true, []) :=
  ⟨by decide, translate32_nonsquare_atomic stSine (by decide)⟩

/-- C4: on the 16-bit-reload platform, for every square-wave state with a
positive target, the driver receives a pair (reload, prescaler) with
2 ≤ reload < 65536 and prescaler ≥ 1, where prescaler = (ticks >> 16) + 1 and,
when prescaler > 1, reload = ticks / prescaler by integer division. -/
theorem translate16_reload_invariant (st : FrequencyInfo)
    (hw : st.Waveform = Waveform.square) (hf : 0 < st.Frequency) :
    ∃ r p, (setWaveformFrequency16 st).2.2 = [DriverCall.timer16SetReload r p] ∧
      2 ≤ r ∧ r < 65536 ∧ 1 ≤ p ∧
      p = clippedTicks st >>> 16 + 1 ∧
      (1 < p → r = clippedTicks st / p) := by
  have h2 : 2 ≤ clippedTicks st := by
    rw [clippedTicks]
    split <;> omega
  have h32 : clippedTicks st ≤ 4294967295 := by
    have := tickCount_le st
    rw [clippedTicks]
    split <;> omega
  obtain ⟨hr2, hrlt, hp1⟩ := reload_prescaler_bounds (clippedTicks st) h2 h32
  refine ⟨_, _, ?_, hr2, hrlt, hp1, rfl, ?_⟩
  · rw [translate16_eval st hw]
  · intro hp
    rw [if_pos hp]

/-- Witness for C4 at the concrete 150 Hz state (ticks 240000, prescaler 4,
reload 60000). -/
theorem translate16_reload_invariant_witness :
    st150.Waveform = Waveform.square ∧ 0 < st150.Frequency ∧
    ∃ r p, (setWaveformFrequency16 st150).2.2 = [DriverCall.timer16SetReload r p] ∧
      2 ≤ r ∧ r < 65536 ∧ 1 ≤ p ∧
      p = clippedTicks st150 >>> 16 + 1 ∧
      (1 < p → r = clippedTicks st150 / p) :=
  ⟨by decide, by decide, translate16_reload_invariant st150 (by decide) (by decide)⟩

/-- C1 counterexample: at the state `set_target(1, mHz)` the truncated tick
count is 36000000000 ≥ 2, so the claim requires clipped = false and a stored
reload equal to that tick count; the code does return clipped = false, but the
float-to-u32 conversion saturates the stored reload at 4294967295, which is
not the tick count. -/
theorem translate32_lower_clip_counterexample :
    2 ≤ exactTicks stMilli ∧
    ¬((setWaveformFrequency32 stMilli).2.1 = false ∧
      (setWaveformFrequency32 stMilli).1.DividerInt = exactTicks stMilli) := by
  constructor
  · rw [exactTicks_stMilli]
    omega
  · intro h
    have hd := h.2
    rw [translate32_eval stMilli (by decide), exactTicks_stMilli, tickCount_stMilli] at hd
    simp at hd

/-- C1 (amended): on the 32-bit platform, for every square-wave state with a
positive target, if the truncated tick count is below 2 the translator returns
clipped = true and stores reload 2; otherwise it returns clipped = false and
stores the tick count saturated to the u32 range, i.e.
min ticks 4294967295 (the claim's unsaturated "reload = ticks" only holds
below 2^32). -/
theorem translate32_lower_clip (st : FrequencyInfo)
    (hw : st.Waveform = Waveform.square) (hf : 0 < st.Frequency) :
    (exactTicks st < 2 →
      (setWaveformFrequency32 st).2.1 = true ∧
      (setWaveformFrequency32 st).1.DividerInt = 2) ∧
    (2 ≤ exactTicks st →
      (setWaveformFrequency32 st).2.1 = false ∧
      (setWaveformFrequency32 st).1.DividerInt = min (exactTicks st) 4294967295) := by
  rw [translate32_eval st hw, tickCount_eq_min st hf]
  constructor
  · intro hlt
    rw [if_pos (by omega), decide_eq_true (by omega)]
    exact ⟨rfl, rfl⟩
  · intro hge
    rw [if_neg (by omega), decide_eq_false (by omega)]
    exact ⟨rfl, rfl⟩

/-- Witness for C1 at the 200 Hz initial state (tick count 180000). -/
theorem translate32_lower_clip_witness :
    initState.Waveform = Waveform.square ∧ 0 < initState.Frequency ∧
    ((exactTicks initState < 2 →
      (setWaveformFrequency32 initState).2.1 = true ∧
      (setWaveformFrequency32 initState).1.DividerInt = 2) ∧
    (2 ≤ exactTicks initState →
      (setWaveformFrequency32 initState).2.1 = false ∧
      (setWaveformFrequency32 initState).1.DividerInt = min (exactTicks initState) 4294967295)) :=
  ⟨by decide, by decide, translate32_lower_clip initState (by decide) (by decide)⟩

/-- C2 counterexample: at `set_target(1, mHz)` — the claim's own example, tick
count 36000000000 — the stored reload is indeed clamped to 0xFFFFFFFF, but the
translator returns clipped = FALSE: the code has no upper-range check, only
`tPeriodInt < 2` raises the flag. -/
theorem translate32_overflow_counterexample :
    (setWaveformFrequency32 stMilli).2.1 = false ∧
    ¬((setWaveformFrequency32 stMilli).2.1 = true ∧
      (setWaveformFrequency32 stMilli).1.DividerInt = 4294967295) := by
  rw [translate32_eval stMilli (by decide), tickCount_stMilli]
  norm_num

/-- C2 (amended): for every square-wave state with a positive target whose
tick count reaches 2^32 (e.g. target 1 mHz with the 36 MHz clock), the
translator stores reload 0xFFFFFFFF (float-to-u32 saturation) but returns
clipped = false, since the code has no upper-range check. -/
theorem translate32_saturates_unflagged (st : FrequencyInfo)
    (hw : st.Waveform = Waveform.square) (hf : 0 < st.Frequency)
    (hbig : 4294967296 ≤ exactTicks st) :
    (setWaveformFrequency32 st).2.1 = false ∧
    (setWaveformFrequency32 st).1.DividerInt = 4294967295 := by
  rw [translate32_eval st hw, tickCount_eq_min st hf]
  rw [if_neg (by omega), decide_eq_false (by omega)]
  refine ⟨rfl, ?_⟩
  show min (exactTicks st) 4294967295 = 4294967295
  omega

/-- Witness for C2 at the concrete mHz state. -/
theorem translate32_saturates_unflagged_witness :
    stMilli.Waveform = Waveform.square ∧ 0 < stMilli.Frequency ∧
    4294967296 ≤ exactTicks stMilli ∧
    (setWaveformFrequency32 stMilli).2.1 = false ∧
    (setWaveformFrequency32 stMilli).1.DividerInt = 4294967295 :=
  ⟨by decide, by decide, by rw [exactTicks_stMilli]; omega,
    translate32_saturates_unflagged stMilli (by decide) (by decide)
      (by rw [exactTicks_stMilli]; omega)⟩

/-- C5 counterexample: at 150 Hz the tick count is 240000 and the emitted
prescaler is (240000 >> 16) + 1 = 4, which is not an element of the hardware
selector set {1, 8, 64, 256, 1024}: the translator performs no mapping to the
next-greater selector. -/
theorem translate16_selector_counterexample :
    (setWaveformFrequency16 st150).2.2 = [DriverCall.timer16SetReload 60000 4] ∧
    ¬((4 : ℕ) = 1 ∨ (4 : ℕ) = 8 ∨ (4 : ℕ) = 64 ∨ (4 : ℕ) = 256 ∨ (4 : ℕ) = 1024) := by
  constructor
  · rw [translate16_eval st150 (by decide), clippedTicks, tickCount_st150]
    norm_num [Nat.shiftRight_eq_div_pow]
  · decide

/-- C5 (amended): on the 16-bit platform the prescaler value emitted to the
driver is the raw continuous value (ticks >> 16) + 1 — an arbitrary integer
at least 1, not mapped to the selector set {1, 8, 64, 256, 1024}; the emitted
reload r satisfies r·p ≤ ticks < r·p + p. -/
theorem translate16_raw_prescaler (st : FrequencyInfo)
    (hw : st.Waveform = Waveform.square) :
    ∃ r, (setWaveformFrequency16 st).2.2 =
        [DriverCall.timer16SetReload r (clippedTicks st >>> 16 + 1)] ∧
      1 ≤ clippedTicks st >>> 16 + 1 ∧
      r * (clippedTicks st >>> 16 + 1) ≤ clippedTicks st ∧
      clippedTicks st < r * (clippedTicks st >>> 16 + 1) + (clippedTicks st >>> 16 + 1) := by
  rw [translate16_eval st hw]
  refine ⟨_, rfl, by omega, ?_, ?_⟩
  · by_cases hp : 1 < clippedTicks st >>> 16 + 1
    · rw [if_pos hp]
      exact Nat.div_mul_le_self _ _
    · rw [if_neg hp]
      have hp0 : clippedTicks st >>> 16 + 1 = 1 := by omega
      rw [hp0]
      omega
  · by_cases hp : 1 < clippedTicks st >>> 16 + 1
    · rw [if_pos hp]
      have h1 := Nat.div_add_mod (clippedTicks st) (clippedTicks st >>> 16 + 1)
      have hm := Nat.mod_lt (clippedTicks st) (show 0 < clippedTicks st >>> 16 + 1 by omega)
      rw [Nat.mul_comm]
      omega
    · rw [if_neg hp]
      have hp0 : clippedTicks st >>> 16 + 1 = 1 := by omega
      rw [hp0]
      omega

/-- Witness for C5 at the concrete 150 Hz state. -/
theorem translate16_raw_prescaler_witness :
    st150.Waveform = Waveform.square ∧
    ∃ r, (setWaveformFrequency16 st150).2.2 =
        [DriverCall.timer16SetReload r (clippedTicks st150 >>> 16 + 1)] ∧
      1 ≤ clippedTicks st150 >>> 16 + 1 ∧
      r * (clippedTicks st150 >>> 16 + 1) ≤ clippedTicks st150 ∧
      clippedTicks st150 <
        r * (clippedTicks st150 >>> 16 + 1) + (clippedTicks st150 >>> 16 + 1) :=
  ⟨by decide, translate16_raw_prescaler st150 (by decide)⟩

/-! ### Normalization loop lemmas (for `setFrequency`) -/

theorem normalizeLoop_eq_self (f : ℚ) (i : ℕ) (h : f ≤ 1000) : normalizeLoop f i = (f, i) := by
  rw [normalizeLoop, dif_neg (not_lt.mpr h)]

theorem normalizeLoop_le (f : ℚ) (i : ℕ) : (normalizeLoop f i).1 ≤ 1000 := by
  induction f, i using normalizeLoop.induct with
  | case1 f i h ih =>
    rw [normalizeLoop, dif_pos h]
    exact ih
  | case2 f i h =>
    rw [normalizeLoop, dif_neg h]
    exact not_lt.mp h

theorem normalizeLoop_pos (f : ℚ) (i : ℕ) (hf : 0 < f) : 0 < (normalizeLoop f i).1 := by
  induction f, i using normalizeLoop.induct with
  | case1 f i h ih =>
    rw [normalizeLoop, dif_pos h]
    exact ih (by positivity)
  | case2 f i h =>
    rw [normalizeLoop, dif_neg h]
    exact hf

theorem normalizeLoop_mul (f : ℚ) (i : ℕ) :
    (normalizeLoop f i).1 * 1000 ^ (normalizeLoop f i).2 = f * 1000 ^ i := by
  induction f, i using normalizeLoop.induct with
  | case1 f i h ih =>
    rw [normalizeLoop, dif_pos h]
    rw [ih]
    field_simp
    ring
  | case2 f i h =>
    rw [normalizeLoop, dif_neg h]

theorem normalizeLoop_one_lt (f : ℚ) (i : ℕ) (hf : 1000 < f) : 1 < (normalizeLoop f i).1 := by
  induction f, i using normalizeLoop.induct with
  | case1 f i h ih =>
    rw [normalizeLoop, dif_pos h]
    by_cases h2 : 1000 < f / 1000
    · exact ih h2
    · rw [normalizeLoop_eq_self _ _ (not_lt.mp h2)]
      show 1 < f / 1000
      rw [lt_div_iff₀ (by norm_num)]
      linarith
  | case2 f i h =>
    exact absurd hf h

theorem normalizeLoop_index_le (f : ℚ) (i k : ℕ) (hf : 0 < f) (hk : f ≤ 1000 ^ (k + 1)) :
    (normalizeLoop f i).2 ≤ i + k := by
  by_cases h : 1000 < f
  · have h1 : 1 < (normalizeLoop f i).1 := normalizeLoop_one_lt f i h
    have h2 := normalizeLoop_mul f i
    have hpow : (0:ℚ) < 1000 ^ (normalizeLoop f i).2 := by positivity
    have hpow2 : (0:ℚ) < 1000 ^ i := by positivity
    have h3 : ((1000:ℚ)) ^ (normalizeLoop f i).2 < 1000 ^ (k + 1 + i) := by
      calc (1000:ℚ) ^ (normalizeLoop f i).2
          < (normalizeLoop f i).1 * 1000 ^ (normalizeLoop f i).2 := by nlinarith
      _ = f * 1000 ^ i := h2
      _ ≤ 1000 ^ (k + 1) * 1000 ^ i := by nlinarith
      _ = 1000 ^ (k + 1 + i) := by rw [← pow_add]
    have h4 := (pow_lt_pow_iff_right (by norm_num : (1:ℚ) < 1000)).mp h3
    omega
  · rw [normalizeLoop_eq_self f i (not_lt.mp h)]
    omega

theorem translate32_preserves (st : FrequencyInfo) :
    (setWaveformFrequency32 st).1.Frequency = st.Frequency ∧
    (setWaveformFrequency32 st).1.FrequencyFactorIndex = st.FrequencyFactorIndex := by
  rw [setWaveformFrequency32]
  split
  · exact ⟨rfl, rfl⟩
  · exact ⟨rfl, rfl⟩

theorem setFrequency32_eval (st : FrequencyInfo) (hw : st.Waveform = Waveform.square) (f : ℚ) :
    setFrequency32 st f =
      setWaveformFrequency32
        { setFrequencyFactor st
            (if (normalizeLoop f 1).1 < 1 then 0 else (normalizeLoop f 1).2) with
          Frequency := if (normalizeLoop f 1).1 < 1 then (normalizeLoop f 1).1 * 1000
            else (normalizeLoop f 1).1 } := by
  rw [setFrequency32, if_pos hw]
  dsimp only
  by_cases h : (normalizeLoop f 1).1 < 1
  · rw [if_pos h, if_pos h, if_pos h]
  · rw [if_neg h, if_neg h, if_neg h]

/-- C3 counterexample: for the input 1000, `setFrequency` — whose loop guard
is the strict `aValue > 1000` — does not run the loop body: the stored target
is 1000 in decade index 1 (Hz), not 1 in the next decade as the claim states. -/
theorem setFrequency_thousand_counterexample :
    (setFrequency32 initState 1000).1.Frequency = 1000 ∧
    (setFrequency32 initState 1000).1.FrequencyFactorIndex = 1 ∧
    ¬((setFrequency32 initState 1000).1.Frequency = 1 ∧
      (setFrequency32 initState 1000).1.FrequencyFactorIndex = 2) := by
  have h1000 : normalizeLoop 1000 1 = ((1000 : ℚ), 1) :=
    normalizeLoop_eq_self 1000 1 (by norm_num)
  rw [setFrequency32_eval initState (by decide) 1000, h1000]
  rw [if_neg (by norm_num), if_neg (by norm_num)]
  obtain ⟨hF, hI⟩ := translate32_preserves
    { setFrequencyFactor initState 1 with Frequency := (1000 : ℚ) }
  rw [hF, hI]
  simp [setFrequencyFactor]

/-- C3 (amended): for every positive f (bounded by 1000^100, far above the
float range), `setFrequency` normalizes with the STRICT loop guard
`aValue > 1000`, multiplying by 1000 once and using decade 0 (mHz) when the
loop result is below 1; the stored target v satisfies 0 < v ≤ 1000 and
preserves the requested value via v·1000^index = 1000·f.  For f exactly 1000
the loop does not run: the stored target is 1000 in decade index 1 (Hz). -/
theorem setFrequency_normalizes (st : FrequencyInfo) (hw : st.Waveform = Waveform.square)
    (f : ℚ) (hf : 0 < f) (hbig : f ≤ 1000 ^ 100) :
    0 < (setFrequency32 st f).1.Frequency ∧
    (setFrequency32 st f).1.Frequency ≤ 1000 ∧
    (setFrequency32 st f).1.Frequency * 1000 ^ (setFrequency32 st f).1.FrequencyFactorIndex
      = 1000 * f ∧
    (f = 1000 → (setFrequency32 st f).1.Frequency = 1000 ∧
      (setFrequency32 st f).1.FrequencyFactorIndex = 1) := by
  rw [setFrequency32_eval st hw f]
  obtain ⟨hF, hI⟩ := translate32_preserves
    { setFrequencyFactor st
        (if (normalizeLoop f 1).1 < 1 then 0 else (normalizeLoop f 1).2) with
      Frequency := if (normalizeLoop f 1).1 < 1 then (normalizeLoop f 1).1 * 1000
        else (normalizeLoop f 1).1 }
  rw [hF, hI]
  simp only [setFrequencyFactor]
  by_cases hlt : (normalizeLoop f 1).1 < 1
  · have hle1000 : f ≤ 1000 := by
      by_contra hgt
      have := normalizeLoop_one_lt f 1 (not_le.mp hgt)
      linarith
    have heq : normalizeLoop f 1 = (f, 1) := normalizeLoop_eq_self f 1 hle1000
    rw [heq] at hlt ⊢
    rw [if_pos hlt, if_pos hlt]
    refine ⟨by positivity, by nlinarith,
      by rw [Nat.zero_mod, pow_zero, mul_one, mul_comm], ?_⟩
    intro hf1000
    rw [hf1000] at hlt
    norm_num at hlt
  · have hpos := normalizeLoop_pos f 1 hf
    have hle := normalizeLoop_le f 1
    have hidx : (normalizeLoop f 1).2 ≤ 100 := by
      have := normalizeLoop_index_le f 1 99 hf (by simpa using hbig)
      omega
    rw [if_neg hlt, if_neg hlt]
    have hmod : (normalizeLoop f 1).2 % 256 = (normalizeLoop f 1).2 :=
      Nat.mod_eq_of_lt (by omega)
    rw [hmod]
    refine ⟨hpos, hle, ?_, ?_⟩
    · have := normalizeLoop_mul f 1
      rw [this]
      ring
    · intro hf1000
      subst hf1000
      rw [normalizeLoop_eq_self 1000 1 (by norm_num)]
      exact ⟨rfl, rfl⟩

/-- Witness for C3 at the boundary input f = 1000. -/
theorem setFrequency_normalizes_witness :
    initState.Waveform = Waveform.square ∧ (0 : ℚ) < 1000 ∧ (1000 : ℚ) ≤ 1000 ^ 100 ∧
    (0 < (setFrequency32 initState 1000).1.Frequency ∧
    (setFrequency32 initState 1000).1.Frequency ≤ 1000 ∧
    (setFrequency32 initState 1000).1.Frequency *
        1000 ^ (setFrequency32 initState 1000).1.FrequencyFactorIndex = 1000 * 1000 ∧
    ((1000 : ℚ) = 1000 → (setFrequency32 initState 1000).1.Frequency = 1000 ∧
      (setFrequency32 initState 1000).1.FrequencyFactorIndex = 1)) :=
  ⟨by decide, by norm_num, by norm_num,
    setFrequency_normalizes initState (by decide) 1000 (by norm_num) (by norm_num)⟩

/-- C9 counterexample: the numeric-entry value 0 (which is ≤ 0) is NOT
ignored: `doSetFrequency` runs `setFrequency(0)` with no validity check, and
the stored target changes from 200 to 0. -/
theorem invalid_target_counterexample :
    (setFrequency32 initState 0).1.Frequency = 0 ∧
    (setFrequency32 initState 0).1 ≠ initState := by
  have h0 : normalizeLoop 0 1 = ((0 : ℚ), 1) := normalizeLoop_eq_self 0 1 (by norm_num)
  have hF : (setFrequency32 initState 0).1.Frequency = 0 := by
    rw [setFrequency32_eval initState (by decide) 0, h0]
    obtain ⟨hF, _⟩ := translate32_preserves
      { setFrequencyFactor initState (if ((0:ℚ), 1).1 < 1 then 0 else ((0:ℚ), 1).2) with
        Frequency := if ((0:ℚ), 1).1 < 1 then ((0:ℚ), 1).1 * 1000 else ((0:ℚ), 1).1 }
    rw [hF]
    norm_num
  refine ⟨hF, ?_⟩
  intro h
  rw [h] at hF
  norm_num [initState] at hF

/-- C9 (amended): a value v ≤ 0 received from the numeric-entry path is not
ignored: `setFrequency` stores 1000·v as the target with decade index 0
(mHz), changing the state whenever 1000·v differs from the stored target.
Only a NaN (the number pad's cancel sentinel) is filtered, and only in the
LOCAL_DISPLAY build of `doGetFrequency`. -/
theorem nonpositive_target_stored (st : FrequencyInfo) (hw : st.Waveform = Waveform.square)
    (v : ℚ) (hv : v ≤ 0) :
    (setFrequency32 st v).1.Frequency = 1000 * v ∧
    (setFrequency32 st v).1.FrequencyFactorIndex = 0 := by
  have h0 : normalizeLoop v 1 = (v, 1) := normalizeLoop_eq_self v 1 (by linarith)
  rw [setFrequency32_eval st hw v, h0]
  obtain ⟨hF, hI⟩ := translate32_preserves
    { setFrequencyFactor st (if (v, 1).1 < 1 then 0 else (v, 1).2) with
      Frequency := if (v, 1).1 < 1 then (v, 1).1 * 1000 else (v, 1).1 }
  rw [hF, hI]
  have hv1 : (v, 1).1 < 1 := by
    show v < 1
    linarith
  rw [if_pos hv1, if_pos hv1]
  constructor
  · show v * 1000 = 1000 * v
    ring
  · simp [setFrequencyFactor]

/-- Witness for C9 at the concrete input 0 from the initial state. -/
theorem nonpositive_target_stored_witness :
    initState.Waveform = Waveform.square ∧ (0 : ℚ) ≤ 0 ∧
    ((setFrequency32 initState 0).1.Frequency = 1000 * 0 ∧
     (setFrequency32 initState 0).1.FrequencyFactorIndex = 0) :=
  ⟨by decide, le_refl 0, nonpositive_target_stored initState (by decide) 0 (le_refl 0)⟩

/-! ### Slider mapping -/

/-- C7: slider round-trip: for every slider position s in [0, 300] and either
value of is_ten_hz_range, decoding s to a target frequency and re-encoding
that target yields a slider value within ±1 of s (with exact transcendental
arithmetic it is exactly s). -/
theorem slider_roundtrip (s : ℕ) (hs : s ≤ 300) (b : Bool) :
    ((sliderEncode b (sliderDecode b s) : ℤ) - (s : ℤ)).natAbs ≤ 1 := by
  have hround : sliderEncode b (sliderDecode b s) = s := by
    cases b with
    | false =>
      rw [sliderDecode, sliderEncode]
      rw [if_neg (by norm_num), if_neg (by norm_num)]
      rw [Real.logb_rpow (by norm_num) (by norm_num)]
      have h1 : (s : ℝ) / (300 / 3) * 100 = ((s : ℕ) : ℝ) := by
        field_simp
        ring
      rw [h1, Int.floor_natCast]
      simp only [Int.toNat_natCast]
      omega
    | true =>
      rw [sliderDecode, sliderEncode]
      rw [if_pos rfl, if_pos rfl]
      rw [Real.logb_rpow (by norm_num) (by norm_num)]
      have h1 : ((s : ℝ) / (300 / 3) + 1) * 100 = ((s + 100 : ℕ) : ℝ) := by
        push_cast
        field_simp
        ring
      rw [h1, Int.floor_natCast]
      simp only [Int.toNat_natCast]
      omega
  rw [hround]
  omega

/-- Witness for C7 at slider position 150 in 10-Hz mode. -/
theorem slider_roundtrip_witness :
    (150 : ℕ) ≤ 300 ∧
    ((sliderEncode true (sliderDecode true 150) : ℤ) - ((150 : ℕ) : ℤ)).natAbs ≤ 1 :=
  ⟨by decide, slider_roundtrip 150 (by decide) true⟩

/-- The integer part of 100·log10(5) is 69 (since 10^69 ≤ 5^100 and
5^10 < 10^7). -/
theorem floor_logb_five : ⌊Real.logb 10 5 * 100⌋ = 69 := by
  have hlog10 : (0 : ℝ) < Real.log 10 := Real.log_pos (by norm_num)
  have hlow : (69 : ℝ) / 100 ≤ Real.logb 10 5 := by
    have key : ((10 : ℝ)) ^ (69 : ℕ) ≤ 5 ^ (100 : ℕ) := by
      have h0 : ((10 : ℕ) ^ 69 : ℕ) ≤ (5 : ℕ) ^ 100 := by norm_num
      calc ((10 : ℝ)) ^ (69 : ℕ) = (((10 : ℕ) ^ 69 : ℕ) : ℝ) := by push_cast; ring
      _ ≤ (((5 : ℕ) ^ 100 : ℕ) : ℝ) := by exact_mod_cast h0
      _ = (5 : ℝ) ^ (100 : ℕ) := by push_cast; ring
    have hlog : Real.log ((10 : ℝ) ^ (69 : ℕ)) ≤ Real.log ((5 : ℝ) ^ (100 : ℕ)) :=
      Real.log_le_log (by positivity) key
    rw [Real.log_pow, Real.log_pow] at hlog
    rw [Real.logb, div_le_div_iff₀ (by norm_num) hlog10]
    push_cast at hlog ⊢
    linarith
  have hhigh : Real.logb 10 5 < (70 : ℝ) / 100 := by
    have key : ((5 : ℝ)) ^ (10 : ℕ) < 10 ^ (7 : ℕ) := by
      have h0 : ((5 : ℕ) ^ 10 : ℕ) < (10 : ℕ) ^ 7 := by norm_num
      calc ((5 : ℝ)) ^ (10 : ℕ) = (((5 : ℕ) ^ 10 : ℕ) : ℝ) := by push_cast; ring
      _ < (((10 : ℕ) ^ 7 : ℕ) : ℝ) := by exact_mod_cast h0
      _ = (10 : ℝ) ^ (7 : ℕ) := by push_cast; ring
    have hlog : Real.log ((5 : ℝ) ^ (10 : ℕ)) < Real.log ((10 : ℝ) ^ (7 : ℕ)) :=
      Real.log_lt_log (by positivity) key
    rw [Real.log_pow, Real.log_pow] at hlog
    rw [Real.logb, div_lt_div_iff₀ hlog10 (by norm_num)]
    push_cast at hlog ⊢
    linarith
  rw [Int.floor_eq_iff]
  constructor
  · push_cast
    linarith
  · push_cast
    linarith

/-- C10: from the boot state (where is10HzRange = true) a numeric entry of 5
stores target 5 while the 10-Hz range stays active; re-encoding the slider
then computes floor(log10(5)·100) = 69 and the uint16 subtraction 69 − 100
wraps modulo 2^16 to 65505, a slider position far outside [0, 300]. -/
theorem slider_underflow_ten_hz :
    (setFrequency32 initState 5).1.Frequency = 5 ∧
    sliderEncode true (((setFrequency32 initState 5).1.Frequency : ℚ) : ℝ) = 65505 ∧
    300 < (65505 : ℕ) := by
  have hF : (setFrequency32 initState 5).1.Frequency = 5 := by
    have h5 : normalizeLoop 5 1 = ((5 : ℚ), 1) := normalizeLoop_eq_self 5 1 (by norm_num)
    rw [setFrequency32_eval initState (by decide) 5, h5]
    obtain ⟨hF, _⟩ := translate32_preserves
      { setFrequencyFactor initState (if ((5:ℚ), 1).1 < 1 then 0 else ((5:ℚ), 1).2) with
        Frequency := if ((5:ℚ), 1).1 < 1 then ((5:ℚ), 1).1 * 1000 else ((5:ℚ), 1).1 }
    rw [hF]
    norm_num
  refine ⟨hF, ?_, by norm_num⟩
  rw [hF]
  have hcast : (((5 : ℚ) : ℝ)) = (5 : ℝ) := by norm_num
  rw [sliderEncode, hcast]
  rw [floor_logb_five]
  rw [if_pos rfl]
  decide

/-! ### Quantization bound -/

theorem translate32_preserves_factor (st : FrequencyInfo) :
    (setWaveformFrequency32 st).1.FrequencyFactorTimes1000 = st.FrequencyFactorTimes1000 := by
  rw [setWaveformFrequency32]
  split
  · rfl
  · rfl

theorem exactTicks_initState : exactTicks initState = 180000 := by
  have h : ((36000000000 / initState.FrequencyFactorTimes1000 : ℕ) : ℚ) /
      initState.Frequency = ((180000 : ℕ) : ℚ) := by
    norm_num [initState]
  rw [exactTicks, h, Nat.floor_natCast]

theorem exactTicks_stMega : exactTicks stMega = 3 := by
  have h : ((36000000000 / stMega.FrequencyFactorTimes1000 : ℕ) : ℚ) /
      stMega.Frequency = (18 / 5 : ℚ) := by
    norm_num [stMega, initState]
  rw [exactTicks, h, Nat.floor_eq_iff (by norm_num)]
  norm_num

/-- Relative quantization error of replacing N/f by its integer floor t:
the realized value N/t is at least f and exceeds it by at most f/t. -/
theorem floor_quantization (N t : ℕ) (f : ℚ) (hf : 0 < f)
    (ht : t = Nat.floor ((N : ℚ) / f)) (htpos : 0 < t) :
    |(N : ℚ) / (t : ℚ) - f| / f ≤ 1 / (t : ℚ) := by
  have htQ : (0 : ℚ) < (t : ℚ) := by exact_mod_cast htpos
  have hle : ((t : ℕ) : ℚ) ≤ (N : ℚ) / f := by
    rw [ht]
    exact Nat.floor_le (by positivity)
  have hlt : (N : ℚ) / f < (t : ℚ) + 1 := by
    rw [ht]
    exact_mod_cast Nat.lt_floor_add_one ((N : ℚ) / f)
  have hmul : (t : ℚ) * f ≤ N := by
    calc (t : ℚ) * f ≤ ((N : ℚ) / f) * f := by nlinarith
    _ = N := by field_simp
  have hmul2 : (N : ℚ) < ((t : ℚ) + 1) * f := by
    calc (N : ℚ) = ((N : ℚ) / f) * f := by field_simp
    _ < ((t : ℚ) + 1) * f := by nlinarith
  have hfle : f ≤ (N : ℚ) / t := by
    rw [le_div_iff₀ htQ]
    nlinarith
  rw [abs_of_nonneg (by linarith), div_le_div_iff₀ hf htQ]
  have hexpand : ((N : ℚ) / t - f) * t = (N : ℚ) - f * t := by
    field_simp
    ring
  rw [hexpand]
  linarith

/-- C8 (amended): for every translation without clipping (tick count within
[2, 2^32)), the realized frequency recomputed from the integer reload obeys
the quantization bound with target and realized frequency taken in the SAME
decade unit: |realized − target| / target ≤ 1 / effective_reload, where on
the 32-bit platform effective_reload is the stored DividerInt (prescaler 1).
The claim's literal formula, which rescales only the target by
factor_times_1000/1000, fails for decades other than Hz. -/
theorem quantization_bound (st : FrequencyInfo) (hw : st.Waveform = Waveform.square)
    (hf : 0 < st.Frequency) (h2 : 2 ≤ exactTicks st) (h32 : exactTicks st < 4294967296) :
    |realizedFrequency (setWaveformFrequency32 st).1 - st.Frequency| / st.Frequency
      ≤ 1 / (((setWaveformFrequency32 st).1.DividerInt : ℚ)) := by
  have hD : (setWaveformFrequency32 st).1.DividerInt = exactTicks st := by
    rw [translate32_eval st hw]
    show (if tickCount st < 2 then 2 else tickCount st) = exactTicks st
    rw [tickCount_eq_min st hf, if_neg (by omega)]
    omega
  rw [realizedFrequency, translate32_preserves_factor, hD]
  exact floor_quantization _ _ _ hf rfl (by omega)

/-- Witness for C8 at the 200 Hz initial state (ticks 180000, zero error). -/
theorem quantization_bound_witness :
    initState.Waveform = Waveform.square ∧ 0 < initState.Frequency ∧
    2 ≤ exactTicks initState ∧ exactTicks initState < 4294967296 ∧
    |realizedFrequency (setWaveformFrequency32 initState).1 - initState.Frequency| /
        initState.Frequency ≤ 1 / (((setWaveformFrequency32 initState).1.DividerInt : ℚ)) :=
  ⟨by decide, by decide,
    by rw [exactTicks_initState]; omega,
    by rw [exactTicks_initState]; omega,
    quantization_bound initState (by decide) (by decide)
      (by rw [exactTicks_initState]; omega) (by rw [exactTicks_initState]; omega)⟩

/-- C8 counterexample: at 10 MHz (decade factor 10^9) the translation is
clip-free (tick count 3, realized value 12 MHz), yet the claim's literal
bound — with realized frequency in decade units but the target rescaled to Hz
by factor_times_1000/1000 — is violated: |12 − 10^7| / 10 is far above 1/3. -/
theorem quantization_literal_counterexample :
    2 ≤ exactTicks stMega ∧ exactTicks stMega < 4294967296 ∧
    ¬(|realizedFrequency (setWaveformFrequency32 stMega).1 -
        stMega.Frequency * (stMega.FrequencyFactorTimes1000 : ℚ) / 1000| / stMega.Frequency
      ≤ 1 / (((setWaveformFrequency32 stMega).1.DividerInt : ℚ))) := by
  have hD : (setWaveformFrequency32 stMega).1.DividerInt = 3 := by
    rw [translate32_eval stMega (by decide)]
    show (if tickCount stMega < 2 then 2 else tickCount stMega) = 3
    rw [tickCount_eq_min stMega (by norm_num [stMega, initState]), exactTicks_stMega]
    norm_num
  refine ⟨by rw [exactTicks_stMega]; omega, by rw [exactTicks_stMega]; omega, ?_⟩
  rw [realizedFrequency, translate32_preserves_factor, hD]
  rw [not_le]
  have habs : |((36000000000 / stMega.FrequencyFactorTimes1000 : ℕ) : ℚ) / ((3 : ℕ) : ℚ) -
      stMega.Frequency * (stMega.FrequencyFactorTimes1000 : ℚ) / 1000| = 9999988 := by
    rw [abs_of_nonpos (by norm_num [stMega, initState])]
    norm_num [stMega, initState]
  rw [habs]
  norm_num [stMega, initState]

end FreqGen
